import Mathlib

/-!
# Verification of the OAuthCode project/stage handlers

Shallow embedding of the repository's API handlers:

* `src/api/projects/index.ts`  — `projectHandler` (collection endpoint:
  LIST / CREATE with admin impersonation and stage bootstrap);
* `src/api/projects/[id].ts`   — `projectDetailHandler` (item endpoint:
  READ / UPDATE / DELETE with the ownership lookup);
* `src/api/auth/register.ts`   — `registerUser` (registration).

The Prisma database is modelled as explicit state (`DB`, `RegDB`); the
handlers are state-passing functions returning an outcome (HTTP response
abstraction) and the new state.  JavaScript truthiness of strings is
modelled by comparison with the empty string, `undefined` by `Option`,
and the `string | null | undefined` shape of nullable-optional body
fields by `Option (Option String)`.
-/

/-- The `StageName` Prisma enum, in declaration order. -/
inductive StageName where
  | Ideation | Planning | Research | Development
  | Testing | Deployment | Maintenance | Review
  deriving DecidableEq, Repr

/-- Position of a stage name in the enum declaration, used for the
`orderBy stage_name asc` clause of the detail handler's GET branch. -/
def StageName.idx : StageName → Nat
  | .Ideation => 0 | .Planning => 1 | .Research => 2 | .Development => 3
  | .Testing => 4 | .Deployment => 5 | .Maintenance => 6 | .Review => 7

/-- A `Project` row (`src/unnamed/part_001`, `types/project.ts`):
id, owning user, title, nullable description, tags, timestamp.
Timestamps are abstract `Nat` ticks. -/
structure Project where
  id : String
  user_id : String
  project_title : String
  project_description : Option String
  tags : List String
  updated_at : Nat
  deriving DecidableEq, Repr

/-- A `ProjectStage` row: the two free-form payload documents are
modelled as JSON-object association lists. -/
structure ProjectStage where
  id : String
  project_id : String
  stage_name : StageName
  user_inputs : List (String × String)
  ai_outputs : List (String × String)
  finalized : Bool
  deriving DecidableEq, Repr

/-- The project database: rows plus a fresh-id counter and a clock for
`new Date()`. -/
structure DB where
  projects : List Project
  stages : List ProjectStage
  nextId : Nat
  now : Nat
  deriving DecidableEq, Repr

/-- The authenticated session user (result of `getServerSession`):
`id` and `email` as the handlers read them; absence of the whole
session is `Option` at the request level.  A falsy (empty) `id`
models the `if (!userId)` check of the collection handler. -/
structure SessionUser where
  id : String
  email : String
  deriving DecidableEq, Repr

/-- HTTP method as the handlers branch on it. -/
inductive Method where
  | GET | POST | PUT | DELETE | OPTIONS | OTHER
  deriving DecidableEq, Repr

/-- `POST /projects` body after the zod `createProjectSchema` shape:
`project_description` is `.nullable().optional()` (`none` = absent,
`some none` = explicit null), `tags` is optional before its
`.default([])`, `user_id` is optional. -/
structure CreateBody where
  project_title : String
  project_description : Option (Option String) := none
  tags : Option (List String) := none
  user_id : Option String := none
  deriving DecidableEq, Repr

/-- `PUT /projects/{id}` body after the zod `updateProjectSchema`
shape: every field optional, description nullable-optional. -/
structure UpdateBody where
  project_title : Option String := none
  project_description : Option (Option String) := none
  tags : Option (List String) := none
  deriving DecidableEq, Repr

/-- An inbound request as the two project handlers consume it.  Header
values are strings with `""` for an absent header (absent headers are
falsy in the source's truthiness tests). -/
structure Req where
  method : Method
  session : Option SessionUser
  impersonatingHeader : String := ""
  impersonatedUserIdHeader : String := ""
  queryId : String := ""
  createBody : CreateBody := {project_title := ""}
  updateBody : UpdateBody := {}
  deriving DecidableEq, Repr

/-- Outcome of the collection handler (`projectHandler`). -/
inductive ProjectsOutcome where
  | optionsOk
  | unauthorizedNoSession
  | unauthorizedNoUserId
  | impersonationDenied
  | bodyUserIdDenied
  | listOk (projects : List Project)
  | created (project : Project)
  | validationFailed (msg : String)
  | methodNotAllowed
  deriving DecidableEq, Repr

/-- HTTP status of each collection-handler outcome, as in the source's
`res.status(...)` calls. -/
def ProjectsOutcome.status : ProjectsOutcome → Nat
  | .optionsOk => 200
  | .unauthorizedNoSession => 401
  | .unauthorizedNoUserId => 401
  | .impersonationDenied => 403
  | .bodyUserIdDenied => 403
  | .listOk _ => 200
  | .created _ => 201
  | .validationFailed _ => 400
  | .methodNotAllowed => 405

/-- Outcome of the item handler (`projectDetailHandler`). -/
inductive DetailOutcome where
  | optionsOk
  | unauthorized
  | invalidId
  | notFound
  | getOk (project : Option Project) (stages : List ProjectStage)
  | updated (project : Project)
  | deleted
  | validationFailed (msg : String)
  | methodNotAllowed
  deriving DecidableEq, Repr

/-- HTTP status of each item-handler outcome. -/
def DetailOutcome.status : DetailOutcome → Nat
  | .optionsOk => 200
  | .unauthorized => 401
  | .invalidId => 400
  | .notFound => 404
  | .getOk _ _ => 200
  | .updated _ => 200
  | .deleted => 200
  | .validationFailed _ => 400
  | .methodNotAllowed => 405

/-- `orderBy updated_at desc` of the LIST branch. -/
def sortByUpdatedDesc (l : List Project) : List Project :=
  List.insertionSort (fun p q => q.updated_at ≤ p.updated_at) l

/-- `orderBy stage_name asc` of the detail GET branch. -/
def sortByStageNameAsc (l : List ProjectStage) : List ProjectStage :=
  List.insertionSort (fun s t => s.stage_name.idx ≤ t.stage_name.idx) l

/-- `createProjectSchema.parse`: fails when `project_title` violates
`min(1)`; `tags` takes its `.default([])`. -/
def parseCreate (b : CreateBody) : Except String CreateBody :=
  if b.project_title = "" then .error "Project title is required"
  else .ok { b with tags := some (b.tags.getD []) }

/-- `updateProjectSchema.parse`: an explicitly-present `project_title`
must satisfy `min(1)`. -/
def parseUpdate (b : UpdateBody) : Except String UpdateBody :=
  if b.project_title = some "" then .error "Project title is required"
  else .ok b

/-- The default eight-stage bootstrap list of `projectHandler`. -/
def defaultStages : List StageName :=
  [.Ideation, .Planning, .Research, .Development,
   .Testing, .Deployment, .Maintenance, .Review]

/-- `customStages.length > 0 ? customStages : defaults`
(lines 120–131 of `src/api/projects/index.ts`). -/
def effectiveStageNames (customStages : List StageName) : List StageName :=
  if customStages ≠ [] then customStages else defaultStages

/-- The stage row the bootstrap loop inserts: empty payload documents,
`finalized: false`. -/
def mkStage (sid pid : String) (n : StageName) : ProjectStage :=
  { id := sid, project_id := pid, stage_name := n,
    user_inputs := [], ai_outputs := [], finalized := false }

/-- One `prisma.projectStage.create` attempt inside the bootstrap loop.
A `faults` predicate injects storage failures per stage name; a failed
insertion leaves the database unchanged (the source catches and skips).
Modelled from the spec: the Prisma schema file is not under `src/`; per
§3 the (project id, stage name) pair is a database uniqueness
constraint, so an insertion for an already-present pair also fails. -/
def insertStage (faults : StageName → Bool) (db : DB) (pid : String)
    (n : StageName) : DB :=
  if faults n ∨ db.stages.any (fun s => s.project_id = pid ∧ s.stage_name = n) then
    db
  else
    { db with
      stages := db.stages ++ [mkStage (toString db.nextId) pid n],
      nextId := db.nextId + 1 }

/-- The `for (const stageName of stageNames)` bootstrap loop
(lines 134–149): each insertion attempted independently, failures
skipped, never rolled back. -/
def createStagesLoop (faults : StageName → Bool) (pid : String) :
    List StageName → DB → DB
  | [], db => db
  | n :: rest, db => createStagesLoop faults pid rest (insertStage faults db pid n)

/-- The `Project` row `prisma.project.create` inserts (lines 110–117):
a fresh id, the effective owner, the validated body fields (an absent
or explicitly-null description stores null), the current time. -/
def newProjectRow (db : DB) (validatedData : CreateBody) (userId : String) :
    Project :=
  { id := toString db.nextId,
    user_id := userId,
    project_title := validatedData.project_title,
    project_description := validatedData.project_description.join,
    tags := validatedData.tags.getD [],
    updated_at := db.now }

/-- The CREATE branch of `projectHandler` (lines 110–154): insert the
`Project` row, then run the stage bootstrap loop, and always answer
201 with the created project. -/
def projectHandlerCreate (customStages : List StageName)
    (faults : StageName → Bool) (db : DB) (validatedData : CreateBody)
    (userId : String) : ProjectsOutcome × DB :=
  let newProject : Project := newProjectRow db validatedData userId
  let db1 : DB :=
    { db with projects := db.projects ++ [newProject], nextId := db.nextId + 1 }
  let db2 := createStagesLoop faults newProject.id (effectiveStageNames customStages) db1
  (.created newProject, db2)

/-- Method dispatch of `projectHandler` after the header-based
authorization gate, scoped to the effective `userId`.  The POST branch
re-checks `validatedData.user_id` under the same admin allow-list rule
(lines 99–107): the gate condition mirrors the source's
`validatedData.user_id && validatedData.user_id !== userId &&
adminEmails.length > 0` truthiness test. -/
def projectHandlerMethods (req : Req) (adminEmails : List String)
    (customStages : List StageName) (faults : StageName → Bool) (db : DB)
    (userId email : String) : ProjectsOutcome × DB :=
  match req.method with
  | .GET =>
    (.listOk (sortByUpdatedDesc (db.projects.filter (fun p => p.user_id = userId))), db)
  | .POST =>
    match parseCreate req.createBody with
    | .error msg => (.validationFailed msg, db)
    | .ok validatedData =>
      let bodyUidGate : Bool :=
        match validatedData.user_id with
        | some uid => uid != "" && uid != userId && !adminEmails.isEmpty
        | none => false
      if bodyUidGate then
        if adminEmails.contains email then
          projectHandlerCreate customStages faults db validatedData
            (validatedData.user_id.getD userId)
        else (.bodyUserIdDenied, db)
      else
        projectHandlerCreate customStages faults db validatedData userId
  | _ => (.methodNotAllowed, db)

/-- The collection handler `projectHandler` of
`src/api/projects/index.ts`, as a function of the request, the
configuration (`adminEmails`, `customStages`, `corsEnabled`), a
storage-fault injection for the stage bootstrap, and the database. -/
def projectHandler (req : Req) (adminEmails : List String)
    (customStages : List StageName) (corsEnabled : Bool)
    (faults : StageName → Bool) (db : DB) : ProjectsOutcome × DB :=
  if corsEnabled ∧ req.method = .OPTIONS then (.optionsOk, db)
  else
    match req.session with
    | none => (.unauthorizedNoSession, db)
    | some user =>
      if user.id = "" then (.unauthorizedNoUserId, db)
      else
        let userId := user.id
        let isAdminImpersonating := req.impersonatingHeader = "true"
        let impersonatedUserId := req.impersonatedUserIdHeader
        if isAdminImpersonating ∧ impersonatedUserId ≠ "" ∧ adminEmails ≠ [] then
          if adminEmails.contains user.email then
            projectHandlerMethods req adminEmails customStages faults db
              impersonatedUserId user.email
          else (.impersonationDenied, db)
        else
          projectHandlerMethods req adminEmails customStages faults db
            userId user.email

/-- The `prisma.project.update({ where: { id } })` call of the PUT
branch (lines 93–103 of `src/api/projects/[id].ts`): conditional
spreads apply only truthy / not-`undefined` fields, and `updated_at`
is always set to the current time. -/
def applyUpdate (now : Nat) (b : UpdateBody) (p : Project) : Project :=
  { p with
    project_title :=
      match b.project_title with
      | some t => if t ≠ "" then t else p.project_title
      | none => p.project_title,
    project_description :=
      match b.project_description with
      | some d => d
      | none => p.project_description,
    tags :=
      match b.tags with
      | some ts => ts
      | none => p.tags,
    updated_at := now }

/-- The item handler `projectDetailHandler` of
`src/api/projects/[id].ts`. -/
def projectDetailHandler (req : Req) (corsEnabled : Bool) (db : DB) :
    DetailOutcome × DB :=
  if corsEnabled ∧ req.method = .OPTIONS then (.optionsOk, db)
  else
    match req.session with
    | none => (.unauthorized, db)
    | some user =>
      if req.queryId = "" then (.invalidId, db)
      else
        let id := req.queryId
        match db.projects.find? (fun p => p.id = id ∧ p.user_id = user.id) with
        | none => (.notFound, db)
        | some project =>
          match req.method with
          | .GET =>
            (.getOk (db.projects.find? (fun p => p.id = id))
              (sortByStageNameAsc (db.stages.filter (fun s => s.project_id = id))), db)
          | .PUT =>
            match parseUpdate req.updateBody with
            | .error msg => (.validationFailed msg, db)
            | .ok validatedData =>
              ( .updated (applyUpdate db.now validatedData project),
                { db with projects :=
                    db.projects.map (fun p => if p.id = id then applyUpdate db.now validatedData p else p) } )
          | .DELETE =>
            let db1 : DB :=
              { db with stages := db.stages.filter (fun s => ¬ s.project_id = id) }
            let db2 : DB :=
              { db1 with projects := db1.projects.filter (fun p => ¬ p.id = id) }
            (.deleted, db2)
          | _ => (.methodNotAllowed, db)

/-- A `User` row as `registerUser` creates it
(`src/api/auth/register.ts`). -/
structure User where
  id : String
  name : String
  email : String
  password : String
  oauth_provider : String
  deriving DecidableEq, Repr

/-- The identity store consumed by registration. -/
structure RegDB where
  users : List User
  nextUserId : Nat
  deriving DecidableEq, Repr

/-- The JSON object a `User` row serializes to, as (field, value)
pairs in declaration order. -/
def userRow (u : User) : List (String × String) :=
  [("id", u.id), ("name", u.name), ("email", u.email),
   ("password", u.password), ("oauth_provider", u.oauth_provider)]

/-- The `const \x7b password: _, ...userWithoutPassword \x7d = newUser`
destructuring: every field except `password` survives. -/
def omitPassword (row : List (String × String)) : List (String × String) :=
  row.filter (fun kv => kv.1 ≠ "password")

/-- Result of `registerUser`: `success`, `message` and `status` of the
source's return objects, with the user object of the success case. -/
inductive RegResult where
  | alreadyExists
  | registered (user : List (String × String))
  deriving DecidableEq, Repr

/-- The `status` field of each `registerUser` result. -/
def RegResult.status : RegResult → Nat
  | .alreadyExists => 400
  | .registered _ => 201

/-- `registerUser` of `src/api/auth/register.ts`: look up an existing
identity by email; fail with the already-exists result, else hash the
password (the bcrypt hash is the external parameter `hash`, called
with cost factor 10), insert the new row with
`oauth_provider = "email"`, and return it with the password field
stripped. -/
def registerUser (hash : String → Nat → String) (name email password : String)
    (db : RegDB) : RegResult × RegDB :=
  match db.users.find? (fun u => u.email = email) with
  | some _ => (.alreadyExists, db)
  | none =>
    let hashedPassword := hash password 10
    let newUser : User :=
      { id := toString db.nextUserId, name := name, email := email,
        password := hashedPassword, oauth_provider := "email" }
    ( .registered (omitPassword (userRow newUser)),
      { db with users := db.users ++ [newUser], nextUserId := db.nextUserId + 1 } )

/-- The uniqueness invariant of §3: at most one stage per
(project id, stage name) pair. -/
def stagesOk (l : List ProjectStage) : Prop :=
  l.Pairwise (fun s t => ¬ (s.project_id = t.project_id ∧ s.stage_name = t.stage_name))

/-- Helper: a `find?` over the ownership predicate fails when no stored
project with the requested id belongs to the given user. -/
theorem find_owned_eq_none {l : List Project} {qid uid : String}
    (h : ∀ p ∈ l, p.id = qid → p.user_id ≠ uid) :
    l.find? (fun p => decide (p.id = qid) && decide (p.user_id = uid)) = none := by
  rw [List.find?_eq_none]
  intro p hp
  simp only [Bool.and_eq_true, decide_eq_true_eq, not_and]
  exact fun h1 h2 => h p hp h1 h2

/-- C10: the item handler never consults the impersonation headers:
two requests differing only in `x-admin-impersonating` and
`x-impersonated-user-id` produce identical outcomes and identical
database states, for every method and database. -/
theorem detail_ignores_impersonation_headers (req : Req) (h1 h2 : String)
    (corsEnabled : Bool) (db : DB) :
    projectDetailHandler
      { req with impersonatingHeader := h1, impersonatedUserIdHeader := h2 }
      corsEnabled db
      = projectDetailHandler req corsEnabled db := rfl

/-- C2: for any item-endpoint operation (READ, UPDATE or DELETE) by an
authenticated user on an id for which no stored project both has that
id and belongs to the user — covering a nonexistent project and a
project owned by any other user alike — the handler answers exactly
`(.notFound, db)` (HTTP 404) with the database untouched, so the two
cases are indistinguishable and no cross-user read, update or delete
ever happens. -/
theorem detail_cross_user_not_found (req : Req) (corsEnabled : Bool)
    (db : DB) (u : SessionUser)
    (hsess : req.session = some u)
    (hq : req.queryId ≠ "")
    (hm : req.method = .GET ∨ req.method = .PUT ∨ req.method = .DELETE)
    (hown : ∀ p ∈ db.projects, p.id = req.queryId → p.user_id ≠ u.id) :
    projectDetailHandler req corsEnabled db = (.notFound, db)
      ∧ DetailOutcome.notFound.status = 404 := by
  refine ⟨?_, rfl⟩
  have hfind := find_owned_eq_none hown
  rcases hm with hm | hm | hm <;>
    simp [projectDetailHandler, hsess, hq, hm, hfind]

/-- C2 witness: user `"u1"` issuing GET on a project that exists but is
owned by `"u2"` receives `notFound` and the database is unchanged. -/
theorem detail_cross_user_not_found_witness :
    projectDetailHandler
      { method := .GET,
        session := some { id := "u1", email := "a@x.com" },
        queryId := "p0" }
      false
      { projects := [{ id := "p0", user_id := "u2", project_title := "T",
                       project_description := none, tags := [], updated_at := 0 }],
        stages := [], nextId := 1, now := 5 }
      = (.notFound,
         { projects := [{ id := "p0", user_id := "u2", project_title := "T",
                          project_description := none, tags := [], updated_at := 0 }],
           stages := [], nextId := 1, now := 5 })
      ∧ DetailOutcome.notFound.status = 404 :=
  detail_cross_user_not_found _ _ _ _ rfl (by decide) (Or.inl rfl) (by decide)

/-- C8: on every successful registration the store gains exactly the
created record, and the returned object is that record with the
password field stripped: it carries every non-password field of the
record and contains no password field at all. -/
theorem register_strips_password (hash : String → Nat → String)
    (name email password : String) (db : RegDB)
    (hfree : db.users.find? (fun u => u.email = email) = none) :
    ∃ u : User,
      (registerUser hash name email password db).2.users = db.users ++ [u]
      ∧ (registerUser hash name email password db).1
          = .registered (omitPassword (userRow u))
      ∧ (∀ kv ∈ omitPassword (userRow u), kv.1 ≠ "password")
      ∧ (∀ kv ∈ userRow u, kv.1 ≠ "password" → kv ∈ omitPassword (userRow u))
      ∧ (RegResult.registered (omitPassword (userRow u))).status = 201 := by
  refine ⟨{ id := toString db.nextUserId, name := name, email := email,
            password := hash password 10, oauth_provider := "email" }, ?_, ?_, ?_, ?_, rfl⟩
  · simp [registerUser, hfree]
  · simp [registerUser, hfree]
  · intro kv hkv
    simp only [omitPassword, List.mem_filter, decide_eq_true_eq] at hkv
    exact hkv.2
  · intro kv hkv hne
    simp only [omitPassword, List.mem_filter, decide_eq_true_eq]
    exact ⟨hkv, hne⟩

/-- C8 witness: registering `"bob@x.com"` against an empty store
returns a row with no `password` key that keeps the other fields. -/
theorem register_strips_password_witness :
    ∃ u : User,
      (registerUser (fun s _ => s ++ "#h") "Bob" "bob@x.com" "secretpw"
          { users := [], nextUserId := 0 }).2.users = [] ++ [u]
      ∧ (registerUser (fun s _ => s ++ "#h") "Bob" "bob@x.com" "secretpw"
          { users := [], nextUserId := 0 }).1
          = .registered (omitPassword (userRow u))
      ∧ (∀ kv ∈ omitPassword (userRow u), kv.1 ≠ "password")
      ∧ (∀ kv ∈ userRow u, kv.1 ≠ "password" → kv ∈ omitPassword (userRow u))
      ∧ (RegResult.registered (omitPassword (userRow u))).status = 201 :=
  register_strips_password (fun s _ => s ++ "#h") "Bob" "bob@x.com" "secretpw"
    { users := [], nextUserId := 0 } rfl

/-- C9: registering an email that already has an identity record fails
with the already-exists result (status 400) and leaves the store
unchanged; and after any registration of an email, a second
registration of the same email always takes this failure path. -/
theorem register_duplicate_fails :
    (∀ (hash : String → Nat → String) (n e pw : String) (db : RegDB) (u : User),
      db.users.find? (fun v => v.email = e) = some u →
      registerUser hash n e pw db = (.alreadyExists, db)
        ∧ RegResult.alreadyExists.status = 400)
    ∧ (∀ (hash1 hash2 : String → Nat → String) (n1 pw1 n2 pw2 e : String)
        (db : RegDB),
      (registerUser hash2 n2 e pw2 (registerUser hash1 n1 e pw1 db).2).1
        = .alreadyExists) := by
  constructor
  · intro hash n e pw db u hfound
    exact ⟨by simp [registerUser, hfound], rfl⟩
  · intro hash1 hash2 n1 pw1 n2 pw2 e db
    by_cases hfirst : db.users.find? (fun v => v.email = e) = none
    · simp [registerUser, hfirst, List.find?_append]
    · obtain ⟨u, hu⟩ := Option.ne_none_iff_exists'.mp hfirst
      simp [registerUser, hu]

/-- C9 witness: a store holding `"bob@x.com"` rejects a registration of
that email with `alreadyExists`, leaving the store unchanged. -/
theorem register_duplicate_fails_witness :
    registerUser (fun s _ => s) "Bob2" "bob@x.com" "newpw"
        { users := [{ id := "0", name := "Bob", email := "bob@x.com",
                      password := "h", oauth_provider := "email" }],
          nextUserId := 1 }
      = (.alreadyExists,
         { users := [{ id := "0", name := "Bob", email := "bob@x.com",
                       password := "h", oauth_provider := "email" }],
           nextUserId := 1 })
      ∧ RegResult.alreadyExists.status = 400 :=
  register_duplicate_fails.1 (fun s _ => s) "Bob2" "bob@x.com" "newpw"
    { users := [{ id := "0", name := "Bob", email := "bob@x.com",
                  password := "h", oauth_provider := "email" }],
      nextUserId := 1 }
    { id := "0", name := "Bob", email := "bob@x.com",
      password := "h", oauth_provider := "email" }
    (by decide)

/-- C1 counterexample: with an EMPTY admin allow-list, a GET request by
`"u1"` carrying `x-admin-impersonating: true` and a target user id is
NOT rejected with 403: the gate is skipped entirely (its
`adminEmails.length > 0` conjunct fails), and the operation silently
proceeds scoped to the caller's own id — it returns `u1`'s (empty)
project list instead of the target's, with status 200. -/
theorem impersonation_empty_allowlist_cex :
    projectHandler
      { method := .GET,
        session := some { id := "u1", email := "alice@x.com" },
        impersonatingHeader := "true",
        impersonatedUserIdHeader := "u2" }
      [] [] false (fun _ => false)
      { projects := [{ id := "p0", user_id := "u2", project_title := "T",
                       project_description := none, tags := [], updated_at := 0 }],
        stages := [], nextId := 1, now := 0 }
      = (.listOk [],
         { projects := [{ id := "p0", user_id := "u2", project_title := "T",
                          project_description := none, tags := [], updated_at := 0 }],
           stages := [], nextId := 1, now := 0 })
      ∧ (ProjectsOutcome.listOk []).status = 200 := by
  constructor
  · rfl
  · rfl

/-- C1 amended: header impersonation fails closed with 403 only when
the allow-list is NONEMPTY and the caller's email is not on it (with
the target-id header present); with an empty allow-list the
impersonation request is silently ignored and every operation is
scoped to the caller's own id. -/
theorem impersonation_gate_amended :
    (∀ (req : Req) (adminEmails : List String) (customStages : List StageName)
        (corsEnabled : Bool) (faults : StageName → Bool) (db : DB) (u : SessionUser),
      req.session = some u → u.id ≠ "" →
      ¬ (corsEnabled = true ∧ req.method = Method.OPTIONS) →
      req.impersonatingHeader = "true" → req.impersonatedUserIdHeader ≠ "" →
      adminEmails ≠ [] → adminEmails.contains u.email = false →
      projectHandler req adminEmails customStages corsEnabled faults db
          = (.impersonationDenied, db)
        ∧ ProjectsOutcome.impersonationDenied.status = 403)
    ∧ (∀ (req : Req) (customStages : List StageName) (corsEnabled : Bool)
        (faults : StageName → Bool) (db : DB) (u : SessionUser),
      req.session = some u → u.id ≠ "" →
      ¬ (corsEnabled = true ∧ req.method = Method.OPTIONS) →
      projectHandler req [] customStages corsEnabled faults db
        = projectHandlerMethods req [] customStages faults db u.id u.email) := by
  constructor
  · intro req adminEmails customStages corsEnabled faults db u
      hsess hid hcors himp htarget hne hcontains
    refine ⟨?_, rfl⟩
    have hmem : u.email ∉ adminEmails := by simpa using hcontains
    simp [projectHandler, hsess, hid, hcors, himp, htarget, hne, hmem]
  · intro req customStages corsEnabled faults db u hsess hid hcors
    simp [projectHandler, hsess, hid, hcors]

/-- C1 amended witness: a nonempty allow-list not containing the
caller's email makes an impersonating GET fail with 403, untouched
database. -/
theorem impersonation_gate_amended_witness :
    projectHandler
      { method := .GET,
        session := some { id := "u1", email := "alice@x.com" },
        impersonatingHeader := "true",
        impersonatedUserIdHeader := "u2" }
      ["admin@x.com"] [] false (fun _ => false)
      { projects := [], stages := [], nextId := 0, now := 0 }
      = (.impersonationDenied, { projects := [], stages := [], nextId := 0, now := 0 })
      ∧ ProjectsOutcome.impersonationDenied.status = 403 :=
  impersonation_gate_amended.1 _ _ _ _ _ _
    { id := "u1", email := "alice@x.com" }
    rfl (by decide) (by simp) rfl (by decide) (by decide) (by decide)

/-- C3 counterexample: with an EMPTY admin allow-list, a CREATE by
`"u1"` whose body embeds `user_id: "u2"` is NOT rejected with 403 —
and a project IS created, owned by the CALLER (`"u1"`), the body
`user_id` being silently ignored. -/
theorem body_user_id_empty_allowlist_cex :
    (projectHandler
        { method := .POST,
          session := some { id := "u1", email := "alice@x.com" },
          createBody := { project_title := "T", user_id := some "u2" } }
        [] [] false (fun _ => false)
        { projects := [], stages := [], nextId := 0, now := 0 }).1
      = .created { id := "0", user_id := "u1", project_title := "T",
                   project_description := none, tags := [], updated_at := 0 }
    ∧ (ProjectsOutcome.created
        { id := "0", user_id := "u1", project_title := "T",
          project_description := none, tags := [], updated_at := 0 }).status = 201
    ∧ (projectHandler
        { method := .POST,
          session := some { id := "u1", email := "alice@x.com" },
          createBody := { project_title := "T", user_id := some "u2" } }
        [] [] false (fun _ => false)
        { projects := [], stages := [], nextId := 0, now := 0 }).2.projects
      = [{ id := "0", user_id := "u1", project_title := "T",
           project_description := none, tags := [], updated_at := 0 }] := by
  refine ⟨?_, rfl, ?_⟩
  · rfl
  · rfl

/-- C3 amended: the body-`user_id` admin check applies only when the
allow-list is nonempty: then a non-admin caller gets 403 and no
project is created, and an admin caller gets a project owned by the
body `user_id`.  With an empty allow-list the check is skipped: the
project is created owned by the caller's own id, the body `user_id`
ignored. -/
theorem body_user_id_gate_amended (req : Req) (adminEmails : List String)
    (customStages : List StageName) (corsEnabled : Bool)
    (faults : StageName → Bool) (db : DB) (u : SessionUser) (uid : String)
    (hsess : req.session = some u) (hid : u.id ≠ "")
    (himp : req.impersonatingHeader ≠ "true")
    (hmethod : req.method = .POST)
    (htitle : req.createBody.project_title ≠ "")
    (huid : req.createBody.user_id = some uid)
    (huidne : uid ≠ "") (huidcaller : uid ≠ u.id) :
    (adminEmails ≠ [] → adminEmails.contains u.email = false →
      projectHandler req adminEmails customStages corsEnabled faults db
          = (.bodyUserIdDenied, db)
        ∧ ProjectsOutcome.bodyUserIdDenied.status = 403)
    ∧ (adminEmails.contains u.email = true →
      (projectHandler req adminEmails customStages corsEnabled faults db).1
          = .created (newProjectRow db
              { req.createBody with tags := some (req.createBody.tags.getD []) } uid)
        ∧ (newProjectRow db
            { req.createBody with tags := some (req.createBody.tags.getD []) } uid).user_id
          = uid)
    ∧ (adminEmails = [] →
      (projectHandler req adminEmails customStages corsEnabled faults db).1
          = .created (newProjectRow db
              { req.createBody with tags := some (req.createBody.tags.getD []) } u.id)
        ∧ (newProjectRow db
            { req.createBody with tags := some (req.createBody.tags.getD []) } u.id).user_id
          = u.id) := by
  refine ⟨?_, ?_, ?_⟩
  · intro hne hcontains
    refine ⟨?_, rfl⟩
    have hmem : u.email ∉ adminEmails := by simpa using hcontains
    simp [projectHandler, hsess, hid, himp, hmethod,
      projectHandlerMethods, parseCreate, htitle, huid, huidne, huidcaller, hne, hmem]
  · intro hcontains
    have hmem : u.email ∈ adminEmails := by simpa using hcontains
    have hne : adminEmails ≠ [] := by
      intro h
      rw [h] at hmem
      simp at hmem
    refine ⟨?_, rfl⟩
    simp [projectHandler, hsess, hid, himp, hmethod,
      projectHandlerMethods, parseCreate, htitle, huid, huidne, huidcaller, hne,
      hmem, projectHandlerCreate]
  · intro hempty
    refine ⟨?_, rfl⟩
    simp [projectHandler, hsess, hid, himp, hmethod,
      projectHandlerMethods, parseCreate, htitle, huid, hempty,
      projectHandlerCreate]

/-- C3 amended witness: with allow-list `["admin@x.com"]`, the
non-admin caller `alice` embedding `user_id: "u2"` is denied with 403
and the store is unchanged. -/
theorem body_user_id_gate_amended_witness :
    projectHandler
        { method := .POST,
          session := some { id := "u1", email := "alice@x.com" },
          createBody := { project_title := "T", user_id := some "u2" } }
        ["admin@x.com"] [] false (fun _ => false)
        { projects := [], stages := [], nextId := 0, now := 0 }
      = (.bodyUserIdDenied, { projects := [], stages := [], nextId := 0, now := 0 })
      ∧ ProjectsOutcome.bodyUserIdDenied.status = 403 :=
  (body_user_id_gate_amended _ ["admin@x.com"] [] false (fun _ => false) _
    { id := "u1", email := "alice@x.com" } "u2"
    rfl (by decide) (by decide) rfl (by decide) rfl (by decide)
    (by decide)).1 (by decide) (by decide)

/-- C5: an UPDATE on an owned project answers 200 with the patched row
and stores it; the patch leaves every absent field unchanged, an
omitted `project_description` keeps the stored value while an explicit
null clears it to null (the two are observably distinguishable
whenever a description is stored), and `updated_at` is always
refreshed to the current time. -/
theorem update_patch_semantics (req : Req) (corsEnabled : Bool) (db : DB)
    (u : SessionUser) (p : Project)
    (hsess : req.session = some u)
    (hq : req.queryId ≠ "")
    (hm : req.method = .PUT)
    (hfind : db.projects.find?
        (fun q => decide (q.id = req.queryId) && decide (q.user_id = u.id)) = some p)
    (htitle : req.updateBody.project_title ≠ some "") :
    projectDetailHandler req corsEnabled db
        = (.updated (applyUpdate db.now req.updateBody p),
           { db with projects :=
               db.projects.map (fun q =>
                 if q.id = req.queryId then applyUpdate db.now req.updateBody q else q) })
      ∧ (DetailOutcome.updated (applyUpdate db.now req.updateBody p)).status = 200
      ∧ (req.updateBody.project_description = none →
          (applyUpdate db.now req.updateBody p).project_description = p.project_description)
      ∧ (req.updateBody.project_description = some none →
          (applyUpdate db.now req.updateBody p).project_description = none)
      ∧ (req.updateBody.project_title = none →
          (applyUpdate db.now req.updateBody p).project_title = p.project_title)
      ∧ (req.updateBody.tags = none →
          (applyUpdate db.now req.updateBody p).tags = p.tags)
      ∧ (applyUpdate db.now req.updateBody p).updated_at = db.now
      ∧ (∀ s, p.project_description = some s →
          (applyUpdate db.now { req.updateBody with project_description := none } p).project_description
            ≠ (applyUpdate db.now { req.updateBody with project_description := some none } p).project_description) := by
  refine ⟨?_, rfl, ?_, ?_, ?_, ?_, rfl, ?_⟩
  · simp [projectDetailHandler, hsess, hq, hm, hfind, parseUpdate, htitle]
  · intro h
    simp [applyUpdate, h]
  · intro h
    simp [applyUpdate, h]
  · intro h
    simp [applyUpdate, h]
  · intro h
    simp [applyUpdate, h]
  · intro s hs
    simp [applyUpdate, hs]

/-- C5 witness: updating project `"p0"` of `"u1"` with a body that
omits the description keeps it, while `null` would clear it; absent
title and tags stay; the timestamp becomes the clock value 7. -/
theorem update_patch_semantics_witness :
    projectDetailHandler
        { method := .PUT,
          session := some { id := "u1", email := "a@x.com" },
          queryId := "p0",
          updateBody := { tags := some ["z"] } }
        false
        { projects := [{ id := "p0", user_id := "u1", project_title := "T",
                         project_description := some "d", tags := [], updated_at := 0 }],
          stages := [], nextId := 1, now := 7 }
        = (.updated (applyUpdate 7 { tags := some ["z"] }
             { id := "p0", user_id := "u1", project_title := "T",
               project_description := some "d", tags := [], updated_at := 0 }),
           { projects := [applyUpdate 7 { tags := some ["z"] }
               { id := "p0", user_id := "u1", project_title := "T",
                 project_description := some "d", tags := [], updated_at := 0 }],
             stages := [], nextId := 1, now := 7 })
      ∧ (DetailOutcome.updated (applyUpdate 7 { tags := some ["z"] }
           { id := "p0", user_id := "u1", project_title := "T",
             project_description := some "d", tags := [], updated_at := 0 })).status = 200
      ∧ ((none : Option (Option String)) = none →
          (applyUpdate 7 { tags := some ["z"] }
            { id := "p0", user_id := "u1", project_title := "T",
              project_description := some "d", tags := [], updated_at := 0 }).project_description
            = some "d") := by
  have h := update_patch_semantics
    { method := .PUT,
      session := some { id := "u1", email := "a@x.com" },
      queryId := "p0",
      updateBody := { tags := some ["z"] } }
    false
    { projects := [{ id := "p0", user_id := "u1", project_title := "T",
                     project_description := some "d", tags := [], updated_at := 0 }],
      stages := [], nextId := 1, now := 7 }
    { id := "u1", email := "a@x.com" }
    { id := "p0", user_id := "u1", project_title := "T",
      project_description := some "d", tags := [], updated_at := 0 }
    rfl (by decide) rfl (by decide) (by decide)
  refine ⟨?_, h.2.1, fun _ => h.2.2.1 rfl⟩
  have h1 := h.1
  simpa using h1

/-- C7: a DELETE on an owned project answers 200 and removes the
project together with every one of its stages: afterwards no stage of
that project remains, and a subsequent READ of the same id — by any
user — answers `notFound`. -/
theorem delete_cascades (req : Req) (corsEnabled : Bool) (db : DB)
    (u : SessionUser) (p : Project)
    (hsess : req.session = some u)
    (hq : req.queryId ≠ "")
    (hm : req.method = .DELETE)
    (hfind : db.projects.find?
        (fun q => decide (q.id = req.queryId) && decide (q.user_id = u.id)) = some p) :
    projectDetailHandler req corsEnabled db
        = (.deleted,
           { db with
             projects := db.projects.filter (fun q => !decide (q.id = req.queryId)),
             stages := db.stages.filter (fun s => !decide (s.project_id = req.queryId)) })
      ∧ DetailOutcome.deleted.status = 200
      ∧ (∀ s ∈ (projectDetailHandler req corsEnabled db).2.stages,
          s.project_id ≠ req.queryId)
      ∧ (∀ (req2 : Req) (cors2 : Bool) (u2 : SessionUser),
          req2.method = .GET → req2.session = some u2 →
          req2.queryId = req.queryId →
          projectDetailHandler req2 cors2 (projectDetailHandler req corsEnabled db).2
            = (.notFound, (projectDetailHandler req corsEnabled db).2)) := by
  have hmain : projectDetailHandler req corsEnabled db
      = (.deleted,
         { db with
           projects := db.projects.filter (fun q => !decide (q.id = req.queryId)),
           stages := db.stages.filter (fun s => !decide (s.project_id = req.queryId)) }) := by
    simp [projectDetailHandler, hsess, hq, hm, hfind]
  refine ⟨hmain, rfl, ?_, ?_⟩
  · rw [hmain]
    intro s hs
    simp only [List.mem_filter, Bool.not_eq_eq_eq_not, Bool.not_true,
      decide_eq_false_iff_not] at hs
    exact hs.2
  · intro req2 cors2 u2 hm2 hsess2 hq2
    rw [hmain]
    have hq2ne : req2.queryId ≠ "" := by rw [hq2]; exact hq
    have hfind2 :
        (db.projects.filter (fun q => !decide (q.id = req.queryId))).find?
          (fun q => decide (q.id = req2.queryId) && decide (q.user_id = u2.id)) = none := by
      rw [List.find?_eq_none]
      intro q hqmem
      simp only [List.mem_filter, Bool.not_eq_eq_eq_not, Bool.not_true,
        decide_eq_false_iff_not] at hqmem
      simp only [Bool.and_eq_true, decide_eq_true_eq, not_and]
      intro hcontra
      rw [hq2] at hcontra
      exact absurd hcontra hqmem.2
    simp [projectDetailHandler, hsess2, hq2ne, hm2, hfind2]

/-- C7 witness: deleting `"p0"` (owned by `"u1"`, two stages) removes
the project and both stages; a GET on `"p0"` afterwards is 404. -/
theorem delete_cascades_witness :
    projectDetailHandler
        { method := .DELETE,
          session := some { id := "u1", email := "a@x.com" },
          queryId := "p0" }
        false
        { projects := [{ id := "p0", user_id := "u1", project_title := "T",
                         project_description := none, tags := [], updated_at := 0 }],
          stages := [mkStage "1" "p0" .Ideation, mkStage "2" "p0" .Review],
          nextId := 3, now := 0 }
        = (.deleted, { projects := [], stages := [], nextId := 3, now := 0 })
      ∧ (∀ s ∈ (projectDetailHandler
          { method := .DELETE,
            session := some { id := "u1", email := "a@x.com" },
            queryId := "p0" }
          false
          { projects := [{ id := "p0", user_id := "u1", project_title := "T",
                           project_description := none, tags := [], updated_at := 0 }],
            stages := [mkStage "1" "p0" .Ideation, mkStage "2" "p0" .Review],
            nextId := 3, now := 0 }).2.stages, s.project_id ≠ "p0") := by
  have h := delete_cascades
    { method := .DELETE,
      session := some { id := "u1", email := "a@x.com" },
      queryId := "p0" }
    false
    { projects := [{ id := "p0", user_id := "u1", project_title := "T",
                     project_description := none, tags := [], updated_at := 0 }],
      stages := [mkStage "1" "p0" .Ideation, mkStage "2" "p0" .Review],
      nextId := 3, now := 0 }
    { id := "u1", email := "a@x.com" }
    { id := "p0", user_id := "u1", project_title := "T",
      project_description := none, tags := [], updated_at := 0 }
    rfl (by decide) rfl (by decide)
  refine ⟨?_, h.2.2.1⟩
  have h1 := h.1
  simpa using h1

/-- The stage bootstrap loop never touches the project table. -/
theorem createStagesLoop_projects (faults : StageName → Bool) (pid : String) :
    ∀ (names : List StageName) (db : DB),
    (createStagesLoop faults pid names db).projects = db.projects := by
  intro names
  induction names with
  | nil => intro db; rfl
  | cons n rest ih =>
    intro db
    rw [createStagesLoop, ih]
    unfold insertStage
    split <;> rfl

/-- Behaviour of the stage bootstrap loop on a project with no
pre-existing stages, for a duplicate-free stage-name list: it appends
exactly one freshly-initialized stage per non-faulted name. -/
theorem createStagesLoop_spec (faults : StageName → Bool) (pid : String) :
    ∀ (names : List StageName) (db : DB),
    names.Nodup →
    (∀ s ∈ db.stages, s.project_id = pid → s.stage_name ∉ names) →
    ∃ new : List ProjectStage,
      (createStagesLoop faults pid names db).stages = db.stages ++ new
      ∧ new.map (fun s => s.stage_name) = names.filter (fun n => !faults n)
      ∧ ∀ s ∈ new, s.project_id = pid ∧ s.user_inputs = [] ∧ s.ai_outputs = []
          ∧ s.finalized = false := by
  intro names
  induction names with
  | nil =>
    intro db _ _
    exact ⟨[], by simp [createStagesLoop], rfl, by simp⟩
  | cons n rest ih =>
    intro db hnodup hfresh
    have hrestnodup : rest.Nodup := (List.nodup_cons.mp hnodup).2
    have hnotmem : n ∉ rest := (List.nodup_cons.mp hnodup).1
    by_cases hfault : faults n = true
    · have hstep : insertStage faults db pid n = db := by
        unfold insertStage
        rw [if_pos (Or.inl hfault)]
      rw [createStagesLoop, hstep]
      obtain ⟨new, h1, h2, h3⟩ := ih db hrestnodup
        (fun s hs hpid => fun hmem => hfresh s hs hpid (List.mem_cons_of_mem n hmem))
      refine ⟨new, h1, ?_, h3⟩
      rw [h2, List.filter_cons]
      simp [hfault]
    · have hany : db.stages.any
          (fun s => s.project_id = pid ∧ s.stage_name = n) = false := by
        rw [List.any_eq_false]
        intro s hs
        simp only [decide_eq_true_eq, not_and]
        intro h1 h2
        exact hfresh s hs h1 (h2 ▸ List.mem_cons_self n rest)
      have hcond : ¬ (faults n = true ∨ db.stages.any
          (fun s => s.project_id = pid ∧ s.stage_name = n) = true) := by
        intro hc
        rcases hc with hc | hc
        · exact hfault hc
        · rw [hc] at hany
          exact absurd hany (by decide)
      have hstep : insertStage faults db pid n
          = { db with stages := db.stages ++ [mkStage (toString db.nextId) pid n],
                      nextId := db.nextId + 1 } := by
        unfold insertStage
        rw [if_neg hcond]
      rw [createStagesLoop, hstep]
      obtain ⟨new, h1, h2, h3⟩ := ih
        { db with stages := db.stages ++ [mkStage (toString db.nextId) pid n],
                  nextId := db.nextId + 1 }
        hrestnodup
        (by
          intro s hs hpid
          simp only [List.mem_append, List.mem_singleton] at hs
          rcases hs with hs | hs
          · exact fun hmem => hfresh s hs hpid (List.mem_cons_of_mem n hmem)
          · subst hs
            simpa [mkStage] using hnotmem)
      refine ⟨mkStage (toString db.nextId) pid n :: new, ?_, ?_, ?_⟩
      · rw [h1]
        simp
      · rw [List.map_cons, h2, List.filter_cons]
        simp [hfault, mkStage]
      · intro s hs
        rcases List.mem_cons.mp hs with hs | hs
        · subst hs
          exact ⟨rfl, rfl, rfl, rfl⟩
        · exact h3 s hs

/-- C4: a valid CREATE (authenticated, non-empty title, no body
`user_id`, no impersonation header) inserts the project row first and
then one stage per configured name — the caller-supplied list, or the
default eight names when none is supplied — each stage starting with
empty `user_inputs`/`ai_outputs` and `finalized = false`; the
insertions are independent: for EVERY fault injection the faulted
names are simply skipped with no rollback, the remaining stages exist,
and the handler still answers 201 with the created project. -/
theorem create_bootstrap (req : Req) (adminEmails : List String)
    (customStages : List StageName) (corsEnabled : Bool)
    (faults : StageName → Bool) (db : DB) (u : SessionUser)
    (hsess : req.session = some u) (hid : u.id ≠ "")
    (himp : req.impersonatingHeader ≠ "true")
    (hmethod : req.method = .POST)
    (htitle : req.createBody.project_title ≠ "")
    (hbodyuid : req.createBody.user_id = none)
    (hnodup : (effectiveStageNames customStages).Nodup)
    (hfresh : ∀ s ∈ db.stages, s.project_id ≠ toString db.nextId) :
    ∃ new : List ProjectStage,
      (projectHandler req adminEmails customStages corsEnabled faults db).1
          = .created (newProjectRow db
              { req.createBody with tags := some (req.createBody.tags.getD []) } u.id)
      ∧ (ProjectsOutcome.created (newProjectRow db
          { req.createBody with tags := some (req.createBody.tags.getD []) } u.id)).status = 201
      ∧ (projectHandler req adminEmails customStages corsEnabled faults db).2.projects
          = db.projects ++ [newProjectRow db
              { req.createBody with tags := some (req.createBody.tags.getD []) } u.id]
      ∧ (projectHandler req adminEmails customStages corsEnabled faults db).2.stages
          = db.stages ++ new
      ∧ new.map (fun s => s.stage_name)
          = (effectiveStageNames customStages).filter (fun n => !faults n)
      ∧ ∀ s ∈ new,
          s.project_id = (newProjectRow db
            { req.createBody with tags := some (req.createBody.tags.getD []) } u.id).id
          ∧ s.user_inputs = [] ∧ s.ai_outputs = [] ∧ s.finalized = false := by
  have hred : projectHandler req adminEmails customStages corsEnabled faults db
      = projectHandlerCreate customStages faults db
          { req.createBody with tags := some (req.createBody.tags.getD []) } u.id := by
    simp [projectHandler, hsess, hid, himp, hmethod,
      projectHandlerMethods, parseCreate, htitle, hbodyuid]
  obtain ⟨new, h1, h2, h3⟩ := createStagesLoop_spec faults (toString db.nextId)
    (effectiveStageNames customStages)
    { db with
      projects := db.projects ++ [newProjectRow db
        { req.createBody with tags := some (req.createBody.tags.getD []) } u.id],
      nextId := db.nextId + 1 }
    hnodup
    (by
      intro s hs hpid
      exact absurd hpid (hfresh s hs))
  refine ⟨new, ?_, rfl, ?_, ?_, h2, ?_⟩
  · rw [hred]; rfl
  · rw [hred]
    show (projectHandlerCreate _ _ _ _ _).2.projects = _
    unfold projectHandlerCreate
    dsimp only
    rw [createStagesLoop_projects]
  · rw [hred]
    show (projectHandlerCreate _ _ _ _ _).2.stages = _
    unfold projectHandlerCreate
    dsimp only
    exact h1
  · intro s hs
    exact h3 s hs

/-- C4 witness: creating `"Demo"` with tags `["x","y"]` for `"u1"` on
an empty store, default stage list, no faults. -/
theorem create_bootstrap_witness :
    ∃ new : List ProjectStage,
      (projectHandler
          { method := .POST,
            session := some { id := "u1", email := "a@x.com" },
            createBody := { project_title := "Demo", tags := some ["x", "y"] } }
          [] [] false (fun _ => false)
          { projects := [], stages := [], nextId := 0, now := 0 }).1
          = .created (newProjectRow
              { projects := [], stages := [], nextId := 0, now := 0 }
              { project_title := "Demo", tags := some (some ["x", "y"] |>.getD []) } "u1")
      ∧ (ProjectsOutcome.created (newProjectRow
          { projects := [], stages := [], nextId := 0, now := 0 }
          { project_title := "Demo", tags := some (some ["x", "y"] |>.getD []) } "u1")).status = 201
      ∧ (projectHandler
          { method := .POST,
            session := some { id := "u1", email := "a@x.com" },
            createBody := { project_title := "Demo", tags := some ["x", "y"] } }
          [] [] false (fun _ => false)
          { projects := [], stages := [], nextId := 0, now := 0 }).2.projects
          = [] ++ [newProjectRow
              { projects := [], stages := [], nextId := 0, now := 0 }
              { project_title := "Demo", tags := some (some ["x", "y"] |>.getD []) } "u1"]
      ∧ (projectHandler
          { method := .POST,
            session := some { id := "u1", email := "a@x.com" },
            createBody := { project_title := "Demo", tags := some ["x", "y"] } }
          [] [] false (fun _ => false)
          { projects := [], stages := [], nextId := 0, now := 0 }).2.stages
          = [] ++ new
      ∧ new.map (fun s => s.stage_name)
          = (effectiveStageNames []).filter (fun n => !(fun _ => false) n)
      ∧ ∀ s ∈ new,
          s.project_id = (newProjectRow
            { projects := [], stages := [], nextId := 0, now := 0 }
            { project_title := "Demo", tags := some (some ["x", "y"] |>.getD []) } "u1").id
          ∧ s.user_inputs = [] ∧ s.ai_outputs = [] ∧ s.finalized = false :=
  create_bootstrap
    { method := .POST,
      session := some { id := "u1", email := "a@x.com" },
      createBody := { project_title := "Demo", tags := some ["x", "y"] } }
    [] [] false (fun _ => false)
    { projects := [], stages := [], nextId := 0, now := 0 }
    { id := "u1", email := "a@x.com" }
    rfl (by decide) (by decide) rfl (by decide) rfl (by decide) (by simp)

/-- A non-faulted, non-duplicate stage insertion preserves the
(project id, stage name) uniqueness invariant; a skipped one does
trivially. -/
theorem insertStage_stagesOk (faults : StageName → Bool) (db : DB)
    (pid : String) (n : StageName) (h : stagesOk db.stages) :
    stagesOk (insertStage faults db pid n).stages := by
  unfold insertStage
  split
  · exact h
  · rename_i hcond
    have hany : ¬ db.stages.any
        (fun s => s.project_id = pid ∧ s.stage_name = n) = true := by
      intro hc
      exact hcond (Or.inr hc)
    rw [List.any_eq_true] at hany
    push_neg at hany
    unfold stagesOk at h ⊢
    dsimp only
    rw [List.pairwise_append]
    refine ⟨h, List.pairwise_singleton _ _, ?_⟩
    intro a ha b hb
    rw [List.mem_singleton] at hb
    subst hb
    intro hcontra
    apply hany a ha
    simp only [mkStage] at hcontra
    simp only [decide_eq_true_eq]
    exact hcontra

/-- The bootstrap loop preserves the uniqueness invariant. -/
theorem createStagesLoop_stagesOk (faults : StageName → Bool) (pid : String) :
    ∀ (names : List StageName) (db : DB),
    stagesOk db.stages →
    stagesOk (createStagesLoop faults pid names db).stages := by
  intro names
  induction names with
  | nil => intro db h; exact h
  | cons n rest ih =>
    intro db h
    rw [createStagesLoop]
    exact ih _ (insertStage_stagesOk faults db pid n h)

/-- The CREATE branch preserves the uniqueness invariant. -/
theorem projectHandlerCreate_stagesOk (customStages : List StageName)
    (faults : StageName → Bool) (db : DB) (v : CreateBody) (userId : String)
    (h : stagesOk db.stages) :
    stagesOk (projectHandlerCreate customStages faults db v userId).2.stages := by
  unfold projectHandlerCreate
  dsimp only
  exact createStagesLoop_stagesOk _ _ _ _ h

/-- Method dispatch preserves the uniqueness invariant. -/
theorem projectHandlerMethods_stagesOk (req : Req) (adminEmails : List String)
    (customStages : List StageName) (faults : StageName → Bool) (db : DB)
    (userId email : String) (h : stagesOk db.stages) :
    stagesOk (projectHandlerMethods req adminEmails customStages faults db userId email).2.stages := by
  unfold projectHandlerMethods
  cases hm : req.method <;> simp only
  case GET => exact h
  case POST =>
    cases hp : parseCreate req.createBody with
    | error msg => exact h
    | ok v =>
      dsimp only
      split
      · split
        · exact projectHandlerCreate_stagesOk _ _ _ _ _ h
        · exact h
      · exact projectHandlerCreate_stagesOk _ _ _ _ _ h
  all_goals exact h

/-- The collection handler preserves the uniqueness invariant. -/
theorem projectHandler_stagesOk (req : Req) (adminEmails : List String)
    (customStages : List StageName) (corsEnabled : Bool)
    (faults : StageName → Bool) (db : DB) (h : stagesOk db.stages) :
    stagesOk (projectHandler req adminEmails customStages corsEnabled faults db).2.stages := by
  unfold projectHandler
  split
  · exact h
  · cases req.session with
    | none => exact h
    | some u =>
      dsimp only
      split
      · exact h
      · split
        · split
          · exact projectHandlerMethods_stagesOk _ _ _ _ _ _ _ h
          · exact h
        · exact projectHandlerMethods_stagesOk _ _ _ _ _ _ _ h

/-- The item handler preserves the uniqueness invariant. -/
theorem projectDetailHandler_stagesOk (req : Req) (corsEnabled : Bool)
    (db : DB) (h : stagesOk db.stages) :
    stagesOk (projectDetailHandler req corsEnabled db).2.stages := by
  unfold projectDetailHandler
  split
  · exact h
  · cases req.session with
    | none => exact h
    | some u =>
      dsimp only
      split
      · exact h
      · cases hf : db.projects.find?
            (fun p => p.id = req.queryId ∧ p.user_id = u.id) with
        | none => exact h
        | some p =>
          cases hm : req.method <;> simp only
          case GET => exact h
          case PUT =>
            cases hp : parseUpdate req.updateBody with
            | error msg => exact h
            | ok v => exact h
          case DELETE =>
            exact List.Pairwise.sublist (List.filter_sublist _) h
          all_goals exact h

/-- From the uniqueness invariant, the stage names of any one project
are pairwise distinct. -/
theorem stagesOk_names_nodup (l : List ProjectStage) (h : stagesOk l)
    (pid : String) :
    ((l.filter (fun s => s.project_id = pid)).map (fun s => s.stage_name)).Nodup := by
  have hfilter : (l.filter (fun s => decide (s.project_id = pid))).Pairwise
      (fun s t => ¬ (s.project_id = t.project_id ∧ s.stage_name = t.stage_name)) :=
    List.Pairwise.sublist (List.filter_sublist l) h
  rw [List.Nodup, List.pairwise_map]
  refine List.Pairwise.imp_of_mem ?_ hfilter
  intro a b ha hb hr
  have hapid : a.project_id = pid := by
    have := List.of_mem_filter ha
    simpa using this
  have hbpid : b.project_id = pid := by
    have := List.of_mem_filter hb
    simpa using this
  intro hname
  exact hr ⟨hapid.trans hbpid.symm, hname⟩

/-- C6: from any state satisfying the invariant "at most one stage per
(project id, stage name) pair", every operation of either project
handler leads to a state still satisfying it, and in the post-state
the stage names of any one project — in particular of a freshly
created one, for the caller-supplied or default stage list alike — are
pairwise distinct. -/
theorem stage_uniqueness_invariant (req : Req) (adminEmails : List String)
    (customStages : List StageName) (corsEnabled : Bool)
    (faults : StageName → Bool) (db : DB) (req2 : Req) (cors2 : Bool)
    (h : stagesOk db.stages) :
    stagesOk (projectHandler req adminEmails customStages corsEnabled faults db).2.stages
    ∧ stagesOk (projectDetailHandler req2 cors2 db).2.stages
    ∧ ∀ pid,
        (((projectHandler req adminEmails customStages corsEnabled faults db).2.stages.filter
            (fun s => s.project_id = pid)).map (fun s => s.stage_name)).Nodup :=
  ⟨projectHandler_stagesOk req adminEmails customStages corsEnabled faults db h,
   projectDetailHandler_stagesOk req2 cors2 db h,
   fun pid => stagesOk_names_nodup _
     (projectHandler_stagesOk req adminEmails customStages corsEnabled faults db h) pid⟩

/-- C6 witness: a CREATE on an empty store satisfies the preserved
invariant and yields pairwise-distinct stage names for every project
id in the post-state. -/
theorem stage_uniqueness_invariant_witness :
    stagesOk (projectHandler
        { method := .POST,
          session := some { id := "u1", email := "a@x.com" },
          createBody := { project_title := "Demo" } }
        [] [] false (fun _ => false)
        { projects := [], stages := [], nextId := 0, now := 0 }).2.stages
    ∧ stagesOk (projectDetailHandler
        { method := .GET, session := some { id := "u1", email := "a@x.com" },
          queryId := "p9" }
        false
        { projects := [], stages := [], nextId := 0, now := 0 }).2.stages
    ∧ ∀ pid,
        (((projectHandler
            { method := .POST,
              session := some { id := "u1", email := "a@x.com" },
              createBody := { project_title := "Demo" } }
            [] [] false (fun _ => false)
            { projects := [], stages := [], nextId := 0, now := 0 }).2.stages.filter
              (fun s => s.project_id = pid)).map (fun s => s.stage_name)).Nodup :=
  stage_uniqueness_invariant
    { method := .POST,
      session := some { id := "u1", email := "a@x.com" },
      createBody := { project_title := "Demo" } }
    [] [] false (fun _ => false)
    { projects := [], stages := [], nextId := 0, now := 0 }
    { method := .GET, session := some { id := "u1", email := "a@x.com" },
      queryId := "p9" }
    false
    List.Pairwise.nil
